import Mathlib

/-!
Shallow embedding of the core of the `shrimp` NES emulator (Rust),
covering the 6502 CPU register file and arithmetic instructions, the
cartridge mapper layer (NROM, MMC1, CNROM), and the PPU register
interface.  Machine integers are modelled as `Nat` with explicit
`% 2^w` where the Rust code wraps; Rust panics (`panic!`,
`unreachable!`, `unimplemented!`, out-of-bounds `Vec` indexing and
division by zero) are modelled with `Option`, `none` meaning the
program aborts.
-/

namespace Shrimp

/-! ## CPU register file (src/cpu/register.rs) -/

/-- 6502 status flags, as in `enum Flag` of `src/cpu/register.rs`. -/
inductive Flag where
  | N | V | B | D | I | Z | C
deriving DecidableEq, Repr

/-- 6502 register file, as in `struct Registers` of `src/cpu/register.rs`.
All fields are `Nat`s modelling `u8` (`a`, `x`, `y`, `s`, `p`) or `u16` (`pc`). -/
structure Registers where
  a : Nat
  x : Nat
  y : Nat
  pc : Nat
  s : Nat
  p : Nat
deriving DecidableEq, Repr

/-- `Registers::default()`: power-up register values. -/
def Registers.default : Registers :=
  { a := 0, x := 0, y := 0, pc := 0, s := 0xFD, p := 0 }

/-- Bit mask of a status flag, as in `Registers::set_flag`. -/
def Flag.mask : Flag → Nat
  | .N => 0b10000000
  | .V => 0b01000000
  | .B => 0b00010000
  | .D => 0b00001000
  | .I => 0b00000100
  | .Z => 0b00000010
  | .C => 0b00000001

/-- `Registers::set_flag`. -/
def Registers.set_flag (r : Registers) (f : Flag) (val : Bool) : Registers :=
  if val then { r with p := r.p ||| f.mask }
  else { r with p := r.p &&& (0xFF ^^^ f.mask) }

/-- `Registers::get_flag`. -/
def Registers.get_flag (r : Registers) (f : Flag) : Bool :=
  r.p &&& f.mask > 0

/-- `CPU::set_zn`: set Z from `res == 0` and N from bit 7 of `res`. -/
def Registers.set_zn (r : Registers) (res : Nat) : Registers :=
  (r.set_flag .Z (res == 0x00)).set_flag .N (res &&& 0x80 == 0x80)

/-! ## ADC and SBC cores (src/cpu/mod.rs, `CPU::adc` / `CPU::sbc`)

The bodies of `CPU::adc` and `CPU::sbc` after `let mem = am.load(self)`:
they transform the register file given the loaded operand byte `mem`. -/

/-- Body of `CPU::adc` (src/cpu/mod.rs lines 317-328) given the loaded
operand `mem`: `res = mem as u16 + acc as u16` (note: the incoming carry
flag is NOT added), carry from `res > 0xFF`, overflow from
`(acc ^ mem) & 0x80 == 0 && (acc ^ res) & 0x80 == 0x80`. -/
def adcStep (reg : Registers) (mem : Nat) : Registers :=
  let acc := reg.a
  let res := mem + acc
  let reg := reg.set_flag .C (res > 0xFF)
  let res := res % 256
  let reg := reg.set_flag .V ((acc ^^^ mem) &&& 0x80 == 0 && (acc ^^^ res) &&& 0x80 == 0x80)
  let reg := reg.set_zn res
  { reg with a := res }

/-- Body of `CPU::sbc` (src/cpu/mod.rs lines 1269-1282) given the loaded
operand `mem`: borrow `c` is `0` when the carry flag is set and `1`
otherwise; `res = acc.wrapping_sub(mem).wrapping_sub(c)` on `u16`;
carry from `res & 0x100 == 0`; overflow from
`(acc ^ res) & 0x80 != 0 && (acc ^ mem) & 0x80 == 0x80`. -/
def sbcStep (reg : Registers) (mem : Nat) : Registers :=
  let acc := reg.a
  let c := if reg.get_flag .C then 0x00 else 0x01
  let res := (acc + 0x10000 - mem % 0x10000) % 0x10000
  let res := (res + 0x10000 - c) % 0x10000
  let reg := reg.set_flag .C (res &&& 0x100 == 0)
  let res := res % 256
  let reg := reg.set_flag .V ((acc ^^^ res) &&& 0x80 != 0 && (acc ^^^ mem) &&& 0x80 == 0x80)
  let reg := reg.set_zn res
  { reg with a := res }

/-! ## Cartridge mapper layer (src/cartridge/mapper/) -/

/-- A Rust `Vec<u8>`, modelled as a length together with the byte at
each index.  `get?` mirrors Rust indexing: `none` models the
out-of-bounds panic. -/
structure ByteVec where
  len : Nat
  data : Nat → Nat

/-- Rust `v[i]`: the byte at `i`, panicking (`none`) out of bounds. -/
def ByteVec.get? (v : ByteVec) (i : Nat) : Option Nat :=
  if i < v.len then some (v.data i) else none

/-- Rust `Vec::is_empty`. -/
def ByteVec.isEmpty (v : ByteVec) : Bool :=
  v.len == 0

/-- iNES header fields of interest, as in `struct Header` of
`src/cartridge/mapper/mod.rs`. -/
structure Header where
  prg_rom_size : Nat
  chr_rom_size : Nat
  mapper : Nat
deriving DecidableEq, Repr

/-- NROM mapper state (`src/cartridge/mapper/mapper_000.rs`). -/
structure Mapper0 where
  header : Header
  prg_rom : ByteVec
  chr_rom : ByteVec

/-- `mapper_000::Mapper::readb`.  `none` models a Rust panic
(out-of-bounds `Vec` index). -/
def Mapper0.readb (m : Mapper0) (addr : Nat) : Option Nat :=
  if addr ≤ 0x1FFF then
    if m.chr_rom.isEmpty then some 0
    else m.chr_rom.get? addr
  else if 0x6000 ≤ addr ∧ addr ≤ 0x7FFF then some 0
  else if 0x8000 ≤ addr ∧ addr ≤ 0xBFFF then m.prg_rom.get? (addr - 0x8000)
  else if 0xC000 ≤ addr ∧ addr ≤ 0xFFFF then
    let addr := if m.header.prg_rom_size > 1 then addr &&& 0x7FFF else addr &&& 0x3FFF
    m.prg_rom.get? addr
  else some 0

/-- `mapper_000::Mapper::writeb`: the body is
`unreachable!("cannot write to NROM")`, i.e. every write panics;
`none` models the panic. -/
def Mapper0.writeb (_ : Mapper0) (_ : Nat) (_ : Nat) : Option Mapper0 :=
  none

/-- MMC1 mapper state (`src/cartridge/mapper/mapper_001.rs`).  The two
`[u32; 2]` offset arrays are modelled as pairs. -/
structure Mapper1 where
  shift_register : Nat
  must_write_register : Bool
  header : Header
  prg_rom_size : Nat
  prg_rom : ByteVec
  chr_rom : ByteVec
  chr_bank_1 : Nat
  chr_bank_2 : Nat
  prg_bank : Nat
  prg_offsets : Nat × Nat
  chr_offsets : Nat × Nat
  control : Nat

/-- `mapper_001::Mapper::prg_offset`.  Rust `index % n` panics when
`n = 0`, hence the `Option`. -/
def Mapper1.prg_offset (m : Mapper1) (index : Nat) : Option Nat :=
  let n := m.prg_rom.len / 0x4000
  if n = 0 then none else some ((index % n) * 0x4000)

/-- `mapper_001::Mapper::chr_offset`: the source returns `0`
unconditionally (the real formula is commented out). -/
def Mapper1.chr_offset (_ : Mapper1) (_ : Nat) : Option Nat :=
  some 0

/-- `mapper_001::Mapper::update_offsets`: recompute `prg_offsets` and
`chr_offsets` from `control`, `prg_bank`, `chr_bank_1`, `chr_bank_2`. -/
def Mapper1.update_offsets (m : Mapper1) : Option Mapper1 := do
  let m ←
    match (m.control &&& 0x0C) >>> 2 with
    | 0 | 1 => do
      let o0 ← m.prg_offset (m.prg_bank &&& 0x0E)
      let o1 ← m.prg_offset ((m.prg_bank ||| 0x01) &&& 0x0F)
      pure { m with prg_offsets := (o0, o1) }
    | 2 => do
      let o1 ← m.prg_offset (m.prg_bank &&& 0x0F)
      pure { m with prg_offsets := (0, o1) }
    | _ => do
      let o0 ← m.prg_offset (m.prg_bank &&& 0x0F)
      let o1 ← m.prg_offset (m.prg_rom.len / 0x4000 - 1)
      pure { m with prg_offsets := (o0, o1) }
  match (m.control &&& 0x10) >>> 4 with
  | 0 => do
    let c0 ← m.chr_offset (m.chr_bank_1 &&& 0x1E)
    let c1 ← m.chr_offset (m.chr_bank_1 ||| 0x01)
    pure { m with chr_offsets := (c0, c1) }
  | _ => do
    let c0 ← m.chr_offset (m.chr_bank_1 &&& 0x1F)
    let c1 ← m.chr_offset (m.chr_bank_2 &&& 0x1F)
    pure { m with chr_offsets := (c0, c1) }

/-- `mapper_001::Mapper::write_shift_register` (src/cartridge/mapper/
mapper_001.rs lines 39-66).  A value with bit 7 set resets the shift
register to `0x10` (and commits nothing; `control` is untouched).
Otherwise `done` is detected from the shift register's LSB before
shifting; on `done` the register match commits `val & 0x0F` to
`prg_bank` for addresses `0xDFFF..=0xFFFF`, commits nothing for
`0x8000..=0xDFFE`, and is `unreachable!()` below `0x8000`; then the
shift register is reset and offsets are recomputed. -/
def Mapper1.write_shift_register (m : Mapper1) (addr val : Nat) : Option Mapper1 :=
  if val ≥ 0x80 then
    some { m with shift_register := 0x10 }
  else
    let done := m.shift_register &&& 0x01 == 0x01
    let bit := (val &&& 0x01) <<< 4
    let m := { m with shift_register := (m.shift_register >>> 1) ||| bit }
    if done then do
      let m ←
        if addr ≤ 0x7FFF then none
        else if addr ≤ 0xDFFE then some m
        else some { m with prg_bank := val &&& 0x0F }
      let m := { m with shift_register := 0x10 }
      m.update_offsets
    else
      some m

/-- `mapper_001::Mapper::writeb`. -/
def Mapper1.writeb (m : Mapper1) (addr val : Nat) : Option Mapper1 :=
  if 0x4020 ≤ addr ∧ addr ≤ 0x5FFF then some m
  else if 0x6000 ≤ addr ∧ addr ≤ 0x6003 then some m
  else if 0x8000 ≤ addr ∧ addr ≤ 0xFFFF then m.write_shift_register addr val
  else some m

/-- `mapper_001::Mapper::readb`. -/
def Mapper1.readb (m : Mapper1) (addr : Nat) : Option Nat :=
  if addr ≤ 0x1FFF then
    let bank_offset := m.chr_bank_1 * 0x2000
    m.chr_rom.get? (bank_offset + addr)
  else if 0x4020 ≤ addr ∧ addr ≤ 0x5FFF then some 0
  else if 0x6000 ≤ addr ∧ addr ≤ 0x7FFF then some 0
  else if 0x8000 ≤ addr ∧ addr ≤ 0xFFFF then
    let addr := addr - 0x8000
    let bank := addr / 0x4000
    let offset := addr % 0x4000
    let addr := (if bank = 0 then m.prg_offsets.1 else m.prg_offsets.2) + offset
    m.prg_rom.get? addr
  else none

/-- CNROM mapper state (`src/cartridge/mapper/mapper_003.rs`). -/
structure Mapper3 where
  header : Header
  prg_rom_size : Nat
  prg_rom : ByteVec
  chr_rom : ByteVec
  selected_bank : Nat

/-- `mapper_003::Mapper::writeb`: for `0x8000..=0xFFFF` the selected
CHR bank becomes `(addr & 0x03)` — the low two bits of the *address*,
the written value playing no part; other unmatched addresses panic. -/
def Mapper3.writeb (m : Mapper3) (addr : Nat) (_ : Nat) : Option Mapper3 :=
  if 0x4020 ≤ addr ∧ addr ≤ 0x5FFF then some m
  else if 0x6000 ≤ addr ∧ addr ≤ 0x7FFF then some m
  else if 0x8000 ≤ addr ∧ addr ≤ 0xFFFF then
    some { m with selected_bank := addr &&& 0x03 }
  else none

/-- `mapper_003::Mapper::readb`.  Rust `%` by zero panics, hence the
guard on `prg_rom_size`. -/
def Mapper3.readb (m : Mapper3) (addr : Nat) : Option Nat :=
  if addr ≤ 0x1FFF then
    let bank_offset := m.selected_bank * 0x2000
    m.chr_rom.get? (bank_offset + addr)
  else if 0x4020 ≤ addr ∧ addr ≤ 0x5FFF then some 0
  else if 0x6000 ≤ addr ∧ addr ≤ 0x7FFF then some 0
  else if 0x8000 ≤ addr ∧ addr ≤ 0xFFFF then
    if m.prg_rom_size = 0 then none
    else m.prg_rom.get? ((addr - 0x8000) % m.prg_rom_size)
  else none

/-- The closed set of mapper variants built by `mapper::from`
(`src/cartridge/mapper/mod.rs`). -/
inductive Mapper where
  | m0 : Mapper0 → Mapper
  | m1 : Mapper1 → Mapper
  | m3 : Mapper3 → Mapper

/-- Dynamic dispatch of `Mapper::readb` over the variants. -/
def Mapper.readb : Mapper → Nat → Option Nat
  | .m0 m, addr => m.readb addr
  | .m1 m, addr => m.readb addr
  | .m3 m, addr => m.readb addr

/-- Dynamic dispatch of `Mapper::writeb` over the variants. -/
def Mapper.writeb : Mapper → Nat → Nat → Option Mapper
  | .m0 m, addr, val => (m.writeb addr val).map .m0
  | .m1 m, addr, val => (m.writeb addr val).map .m1
  | .m3 m, addr, val => (m.writeb addr val).map .m3

/-- The `Mapper` trait's default `readw` (src/cartridge/mapper/mod.rs
lines 9-13): `lo = readb(addr); hi = readb(addr); (hi << 8) | lo` —
both bytes come from the *same* address.  No variant overrides it. -/
def Mapper.readw (m : Mapper) (addr : Nat) : Option Nat := do
  let lo ← m.readb addr
  let hi ← m.readb addr
  pure ((hi <<< 8) ||| lo)

/-- `struct Cartridge` (src/cartridge/mod.rs): a boxed mapper. -/
structure Cartridge where
  mapper : Mapper

/-- `Cartridge::read`. -/
def Cartridge.read (c : Cartridge) (addr : Nat) : Option Nat :=
  c.mapper.readb addr

/-- `Cartridge::write`. -/
def Cartridge.write (c : Cartridge) (addr val : Nat) : Option Cartridge :=
  (c.mapper.writeb addr val).map Cartridge.mk

/-! ## PPU (src/ppu/mod.rs, src/ppu/register.rs)

In the source the PPU holds an `Rc<RefCell<Cartridge>>` shared with the
CPU.  The embedding passes the cartridge explicitly: operations that
only ever call `Cartridge::read` (`&self`) take it as a read-only
argument; `PPU::write`, which can reach `Cartridge::write` through the
PPUDATA arm, returns the possibly-updated cartridge. -/

/-- `enum AddressLatch` (src/ppu/register.rs). -/
inductive AddressLatch where
  | LO | HI
deriving DecidableEq, Repr

/-- `AddressLatch::next`. -/
def AddressLatch.next : AddressLatch → AddressLatch
  | .LO => .HI
  | .HI => .LO

/-- `enum Register` (src/ppu/register.rs). -/
inductive Register where
  | PPUCTRL | PPUMASK | PPUSTATUS | OAMADDR | OAMDATA | PPUSCROLL | PPUADDR | PPUDATA
deriving DecidableEq, Repr

/-- `impl From<usize> for Register`: subtract `0x2000` when the index
is a raw bus address, then dispatch on the low three bits (total, since
`n & 7` covers all arms). -/
def Register.fromIndex (n : Nat) : Register :=
  let n := if n ≥ 0x2000 then n - 0x2000 else n
  match n &&& 7 with
  | 0 => .PPUCTRL
  | 1 => .PPUMASK
  | 2 => .PPUSTATUS
  | 3 => .OAMADDR
  | 4 => .OAMDATA
  | 5 => .PPUSCROLL
  | 6 => .PPUADDR
  | _ => .PPUDATA

/-- `struct Sprite` (src/ppu/mod.rs). -/
structure Sprite where
  x : Nat
  y : Nat
  attributes : Nat
  tile_index : Nat
deriving DecidableEq, Repr

/-- `struct PPU` (src/ppu/mod.rs).  Byte arrays are modelled as
functions from index to byte; the shared cartridge handle is passed
explicitly to the operations instead of being a field. -/
structure PPU where
  ppuctrl : Nat
  ppumask : Nat
  ppustatus : Nat
  oamaddr : Nat
  ppuscroll : Nat
  ppuaddr : Nat
  cycles : Nat
  has_blanked : Bool
  nametables : Nat → Nat
  palette_ram_idx : Nat → Nat
  oam : Nat → Nat
  address_latch : AddressLatch
  scanline : Nat
  frame_complete : Bool
  ppudata_buffer : Nat

/-- `PPU::map_addr`: fold the PPU bus address into the canonical
ranges. -/
def PPU.map_addr (addr : Nat) : Nat :=
  let addr := addr % 0x4000
  if 0x3000 ≤ addr ∧ addr ≤ 0x3EFF then addr - 0x1000
  else if 0x3F20 ≤ addr ∧ addr ≤ 0x3FFF then ((addr - 0x3F00) % 0x0020) + 0x3F00
  else addr

/-- `PPU::readb`: pattern-table reads go to the cartridge, nametable
and palette reads to the internal arrays; anything else is
`unimplemented!`. -/
def PPU.readb (p : PPU) (cart : Cartridge) (addr : Nat) : Option Nat :=
  let addr := PPU.map_addr addr
  if addr ≤ 0x1FFF then cart.read addr
  else if 0x2000 ≤ addr ∧ addr ≤ 0x2FFF then some (p.nametables (addr % 0x0400))
  else if 0x3F00 ≤ addr ∧ addr ≤ 0x3F1F then some (p.palette_ram_idx (addr % 0x0020))
  else none

/-- `PPU::writeb`. -/
def PPU.writeb (p : PPU) (cart : Cartridge) (addr val : Nat) :
    Option (PPU × Cartridge) :=
  let addr := PPU.map_addr addr
  if addr ≤ 0x1FFF then (cart.write addr val).map fun c => (p, c)
  else if 0x2000 ≤ addr ∧ addr ≤ 0x2FFF then
    some ({ p with nametables := fun i => if i = addr % 0x0400 then val else p.nametables i },
          cart)
  else if 0x3F00 ≤ addr ∧ addr ≤ 0x3F1F then
    some ({ p with
              palette_ram_idx := fun i => if i = addr % 0x0020 then val else p.palette_ram_idx i },
          cart)
  else none

/-- `PPU::incr_ppuaddr`: add 1 or 32 (per PPUCTRL bit 2) with `u16`
wrap-around. -/
def PPU.incr_ppuaddr (p : PPU) : PPU :=
  let inc := if p.ppuctrl &&& 0x04 == 0 then 1 else 32
  { p with ppuaddr := (p.ppuaddr + inc) % 0x10000 }

/-- The PPUDATA arm of `PPU::read`, parameterised by the accessed
address (the caller passes `self.ppuaddr`): read the PPU bus, bump
`ppuaddr`, and route through the one-byte read buffer below
`0x3F00`. -/
def PPU.ppudata_read (p : PPU) (cart : Cartridge) (addr : Nat) :
    Option (Nat × PPU) :=
  (p.readb cart addr).map fun val =>
    let p := p.incr_ppuaddr
    if addr < 0x3F00 then
      (p.ppudata_buffer, { p with ppudata_buffer := val })
    else
      (val, p)

/-- `PPU::read` (src/ppu/mod.rs lines 486-517).  The PPUSTATUS arm
returns the current status, clears bit 7 and resets the write latch; the
write-only registers OAMADDR/PPUSCROLL/PPUADDR panic. -/
def PPU.read (p : PPU) (cart : Cartridge) (addr : Nat) : Option (Nat × PPU) :=
  match Register.fromIndex addr with
  | .PPUCTRL => some (p.ppuctrl, p)
  | .PPUMASK => some (p.ppumask, p)
  | .PPUSTATUS =>
    some (p.ppustatus, { p with ppustatus := p.ppustatus &&& 0x7F, address_latch := .HI })
  | .OAMADDR => none
  | .OAMDATA => some (p.oam p.oamaddr, p)
  | .PPUSCROLL => none
  | .PPUADDR => none
  | .PPUDATA => p.ppudata_read cart p.ppuaddr

/-- `PPU::write` (src/ppu/mod.rs lines 519-582), including the trailing
match that copies the low five written bits into PPUSTATUS for every
register except OAMADDR and OAMDATA. -/
def PPU.write (p : PPU) (cart : Cartridge) (addr val : Nat) :
    Option (PPU × Cartridge) :=
  let reg := Register.fromIndex addr
  let st? : Option (PPU × Cartridge) :=
    match reg with
    | .PPUCTRL => some ({ p with ppuctrl := val }, cart)
    | .PPUMASK => some ({ p with ppumask := val }, cart)
    | .PPUSTATUS => some (p, cart)
    | .OAMADDR => some ({ p with oamaddr := val }, cart)
    | .OAMDATA =>
      some ({ p with
                oam := fun i => if i = p.oamaddr then val else p.oam i,
                oamaddr := (p.oamaddr + 1) % 256 },
            cart)
    | .PPUSCROLL =>
      let p :=
        match p.address_latch with
        | .HI => { p with ppuscroll := (p.ppuscroll &&& 0x00FF) ||| (val <<< 8) }
        | .LO => { p with ppuscroll := (p.ppuscroll &&& 0xFF00) ||| val }
      some ({ p with address_latch := p.address_latch.next }, cart)
    | .PPUADDR =>
      let p :=
        match p.address_latch with
        | .HI => { p with ppuaddr := (p.ppuaddr &&& 0x00FF) ||| (val <<< 8) }
        | .LO => { p with ppuaddr := (p.ppuaddr &&& 0xFF00) ||| val }
      some ({ p with address_latch := p.address_latch.next }, cart)
    | .PPUDATA =>
      (p.writeb cart p.ppuaddr val).map fun (p, c) => (p.incr_ppuaddr, c)
  st?.map fun (p, c) =>
    match reg with
    | .OAMADDR | .OAMDATA => (p, c)
    | _ =>
      ({ p with ppustatus := (p.ppustatus &&& 0b11100000) ||| (0b00011111 &&& val) }, c)

/-- `PPU::set_sprite_overflow` (src/ppu/mod.rs lines 216-222): note it
sets/clears `0x40`, the sprite-zero-hit bit, not `0x20`. -/
def PPU.set_sprite_overflow (p : PPU) (val : Bool) : PPU :=
  if val then { p with ppustatus := p.ppustatus ||| 0x40 }
  else { p with ppustatus := p.ppustatus &&& (0xFF ^^^ 0x40) }

/-- `PPU::get_scanline_sprite_pixels` (src/ppu/mod.rs lines 304-330):
scan the 64 OAM entries; an entry overlaps when
`scanline ≥ oam_y + 1 ∧ scanline < oam_y + 1 + 8` (with `u8` wrap on
`oam_y + 1`); an overlapping sprite is pushed while the output holds at
most 8 sprites, otherwise `set_sprite_overflow(true)` is called. -/
def PPU.get_scanline_sprite_pixels (p : PPU) : List Sprite × PPU :=
  (List.range 64).foldl
    (fun acc i =>
      let (out, p) := acc
      let j := i * 4
      let sprite_y := (p.oam j + 1) % 256
      let y := p.scanline
      if y < sprite_y + 8 ∧ y ≥ sprite_y then
        if out.length > 8 then
          (out, p.set_sprite_overflow true)
        else
          (out ++ [{ y := sprite_y, tile_index := p.oam (j + 1),
                     attributes := p.oam (j + 2), x := p.oam (j + 3) : Sprite }], p)
      else (out, p))
    ([], p)

/-! ## CPU bus, stack and reset (src/cpu/mod.rs)

The source CPU owns its RAM/APU arrays and shares the PPU and
Cartridge through `Rc<RefCell<..>>`; the embedding owns all four and
threads state through each operation. -/

/-- `const RESET_VECTOR` (src/cpu/mod.rs). -/
def RESET_VECTOR : Nat := 0xFFFC

/-- `struct CPU` (src/cpu/mod.rs).  `ram` models `[u8; 0x0800]` and
`apu` models `[u8; 0x0018]` as functions from index to byte. -/
structure CPU where
  reg : Registers
  ram : Nat → Nat
  apu : Nat → Nat
  ppu : PPU
  cartridge : Cartridge

/-- `CPU::readb` (src/cpu/mod.rs lines 260-268): bus dispatch for
reads.  Reading a PPU register may mutate the PPU, so the possibly
updated CPU is returned alongside the byte. -/
def CPU.readb (c : CPU) (addr : Nat) : Option (Nat × CPU) :=
  if addr ≤ 0x1FFF then some (c.ram (addr % 0x0800), c)
  else if addr ≤ 0x3FFF then
    (c.ppu.read c.cartridge (addr % 0x08)).map fun (v, p) => (v, { c with ppu := p })
  else if addr ≤ 0x4017 then some (c.apu (addr % 0x0018), c)
  else if addr ≤ 0x401F then some (0, c)
  else (c.cartridge.read addr).map fun v => (v, c)

/-- `CPU::readw`: little-endian word read, `addr.wrapping_add(1)` for
the high byte. -/
def CPU.readw (c : CPU) (addr : Nat) : Option (Nat × CPU) := do
  let (lo, c) ← c.readb addr
  let (hi, c) ← c.readb ((addr + 1) % 0x10000)
  pure ((hi <<< 8) ||| lo, c)

/-- `CPU::writeb` (src/cpu/mod.rs lines 280-292): bus dispatch for
writes.  Note the `0x6000..=0x6003` and `0x6004..=0x7FFF` arms come
before the cartridge arm, so writes in `0x6000..=0x7FFF` never reach
the cartridge. -/
def CPU.writeb (c : CPU) (addr val : Nat) : Option CPU :=
  if addr ≤ 0x1FFF then
    some { c with ram := fun i => if i = addr % 0x0800 then val else c.ram i }
  else if addr ≤ 0x3FFF then
    (c.ppu.write c.cartridge (addr % 0x08) val).map fun (p, cart) =>
      { c with ppu := p, cartridge := cart }
  else if addr ≤ 0x4017 then
    some { c with apu := fun i => if i = addr % 0x0018 then val else c.apu i }
  else if addr ≤ 0x401F then some c
  else if 0x6000 ≤ addr ∧ addr ≤ 0x6003 then some c
  else if 0x6004 ≤ addr ∧ addr ≤ 0x7FFF then some c
  else (c.cartridge.write addr val).map fun cart => { c with cartridge := cart }

/-- `CPU::reset` (src/cpu/mod.rs lines 44-47): set PC from the word at
`RESET_VECTOR` and P to `0x24`.  No other register is touched. -/
def CPU.reset (c : CPU) : Option CPU :=
  (c.readw RESET_VECTOR).map fun (w, c) =>
    { c with reg := { c.reg with pc := w, p := 0x24 } }

/-- `CPU::loadb_bump`: read the byte at PC and advance PC. -/
def CPU.loadb_bump (c : CPU) : Option (Nat × CPU) :=
  (c.readb c.reg.pc).map fun (v, c) =>
    (v, { c with reg := { c.reg with pc := (c.reg.pc + 1) % 0x10000 } })

/-- `CPU::pushb` (src/cpu/mod.rs lines 1542-1546): write at
`0x0100 | S`, then post-decrement S with `u8` wrap. -/
def CPU.pushb (c : CPU) (val : Nat) : Option CPU :=
  let sp := c.reg.s
  (c.writeb (0x100 ||| sp) val).map fun c =>
    { c with reg := { c.reg with s := (c.reg.s + 255) % 256 } }

/-- `CPU::popb` (src/cpu/mod.rs lines 1530-1534): pre-increment S with
`u8` wrap, then read at `0x0100 | S`. -/
def CPU.popb (c : CPU) : Option (Nat × CPU) :=
  let c := { c with reg := { c.reg with s := (c.reg.s + 1) % 256 } }
  let sp := c.reg.s
  c.readb (0x100 ||| sp)

/-- `CPU::pushw`: push the high byte, then the low byte. -/
def CPU.pushw (c : CPU) (val : Nat) : Option CPU := do
  let hi := (val >>> 8) % 256
  let lo := val &&& 0xFF
  let c ← c.pushb hi
  c.pushb lo

/-- `CPU::popw`: pop the low byte, then the high byte. -/
def CPU.popw (c : CPU) : Option (Nat × CPU) := do
  let (lo, c) ← c.popb
  let (hi, c) ← c.popb
  pure ((hi <<< 8) ||| lo, c)

/-- `CPU::sbc` at `AddressingMode::Immediate` (opcode `0xE9`): the
immediate load is `loadb_bump` (src/cpu/addressing_mode.rs line 46),
then the `sbc` body runs on the register file. -/
def CPU.sbcImmediate (c : CPU) : Option CPU :=
  c.loadb_bump.map fun (mem, c) => { c with reg := sbcStep c.reg mem }

/-! ## Concrete machine states used as witnesses and counterexamples -/

/-- A fresh NROM mapper for a cartridge with one 16 KiB PRG unit and one
8 KiB CHR unit, all bytes zero. -/
def nrom0 : Mapper0 :=
  { header := { prg_rom_size := 1, chr_rom_size := 1, mapper := 0 },
    prg_rom := { len := 0x4000, data := fun _ => 0 },
    chr_rom := { len := 0x2000, data := fun _ => 0 } }

/-- A cartridge holding `nrom0`. -/
def nromCart : Cartridge := ⟨.m0 nrom0⟩

/-- The PPU state built by `PPU::new`. -/
def ppu0 : PPU :=
  { ppuctrl := 0x10, ppumask := 0, ppustatus := 0x10, oamaddr := 0x01,
    ppuscroll := 0, ppuaddr := 0x0001, cycles := 0, has_blanked := false,
    nametables := fun _ => 0, palette_ram_idx := fun _ => 0, oam := fun _ => 0,
    address_latch := .HI, scanline := 0, frame_complete := false,
    ppudata_buffer := 0 }

/-- A power-up CPU over `nromCart`. -/
def cpu0 : CPU :=
  { reg := Registers.default, ram := fun _ => 0, apu := fun _ => 0,
    ppu := ppu0, cartridge := nromCart }

/-- A CPU whose stack pointer is `0x12` (not the power-up `0xFD`). -/
def cpuS12 : CPU := { cpu0 with reg := { Registers.default with s := 0x12 } }

/-- A CPU about to execute `SBC #0xF0` with `A = 0x50` and carry set:
PC points at the operand byte `0xF0` in RAM. -/
def cpuSbc : CPU :=
  { cpu0 with
      reg := { a := 0x50, x := 0, y := 0, pc := 0, s := 0xFD, p := 0x01 },
      ram := fun i => if i = 0 then 0xF0 else 0 }

/-- The CPU state after the immediate operand load of `cpuSbc`. -/
def cpuSbc' : CPU := { cpuSbc with reg := { cpuSbc.reg with pc := 1 % 0x10000 } }

/-- A CPU whose RAM holds `0x34` at address 0 and `0x12` at address 1. -/
def cpuR : CPU :=
  { cpu0 with ram := fun i => if i = 0 then 0x34 else if i = 1 then 0x12 else 0 }

/-- A fresh MMC1 mapper (shift register `0x10`, `control = 0`) over one
16 KiB PRG unit and one 8 KiB CHR unit, all bytes zero. -/
def mmc1Ex : Mapper1 :=
  { shift_register := 0x10, must_write_register := false,
    header := { prg_rom_size := 1, chr_rom_size := 1, mapper := 1 },
    prg_rom_size := 0x4000,
    prg_rom := { len := 0x4000, data := fun _ => 0 },
    chr_rom := { len := 0x2000, data := fun _ => 0 },
    chr_bank_1 := 0, chr_bank_2 := 0, prg_bank := 0,
    prg_offsets := (0, 0), chr_offsets := (0, 0), control := 0 }

/-- A CNROM mapper whose CHR ROM has four 8 KiB banks: bank 0 holds
`0xAA` everywhere, banks 1-3 hold `0xBB` everywhere. -/
def cnromEx : Mapper3 :=
  { header := { prg_rom_size := 1, chr_rom_size := 4, mapper := 3 },
    prg_rom_size := 1,
    prg_rom := { len := 0x4000, data := fun _ => 0 },
    chr_rom := { len := 0x8000, data := fun i => if i < 0x2000 then 0xAA else 0xBB },
    selected_bank := 0 }

/-- A PPU on scanline 1 whose OAM holds exactly nine sprites with
`y = 0` (sprites 0-8) — nine sprites overlap the scanline — and
`ppustatus = 0`. -/
def ppuNine : PPU :=
  { ppu0 with ppustatus := 0, scanline := 1,
              oam := fun j => if j % 4 = 0 ∧ 36 ≤ j then 100 else 0 }

/-- A PPU on scanline 1 whose OAM holds 64 sprites with `y = 0` — all
64 overlap the scanline — and `ppustatus = 0`. -/
def ppuAll : PPU :=
  { ppu0 with ppustatus := 0, scanline := 1, oam := fun _ => 0 }

end Shrimp

namespace Shrimp

/-! ## Arithmetic helper lemmas about byte assembly -/

/-- `(h <<< 8) ||| l` is plain byte concatenation when `l` is a byte. -/
theorem or_add_of_lt (h : Nat) {l : Nat} (hl : l < 256) :
    (h <<< 8) ||| l = h * 256 + l := by
  have hb : l < 2 ^ 8 := by simpa using hl
  have h2 := Nat.mul_add_lt_is_or hb h
  rw [Nat.shiftLeft_eq, Nat.mul_comm h (2 ^ 8), ← h2, Nat.mul_comm (2 ^ 8) h]

/-- `0x100 ||| s = 0x100 + s` for a byte-sized stack pointer. -/
theorem or256_eq_add {s : Nat} (hs : s < 256) : 0x100 ||| s = 0x100 + s := by
  have hb : s < 2 ^ 8 := by simpa using hs
  have h2 := Nat.mul_add_lt_is_or hb 1
  norm_num at h2
  exact h2.symm

/-- Masking a two-byte value with `0xFF00` keeps exactly the high
byte. -/
theorem and_ff00_eq (h x : Nat) (hh : h < 256) (hx : x < 256) :
    (h * 256 + x) &&& 0xFF00 = h * 256 := by
  have hx' : x < 2 ^ 8 := by simpa using hx
  have e1 : h * 256 + x = 2 ^ 8 * h + x := by ring_nf
  have e2 : h * 256 = 2 ^ 8 * h := by ring_nf
  rw [e1, e2]
  apply Nat.eq_of_testBit_eq
  intro i
  have h65280 : (65280 : Nat) = (2 ^ 8 - 1) <<< 8 := by norm_num [Nat.shiftLeft_eq]
  rw [h65280]
  simp only [Nat.testBit_and, Nat.testBit_shiftLeft, Nat.testBit_two_pow_sub_one,
    Nat.testBit_mul_pow_two_add _ hx', Nat.testBit_mul_pow_two]
  by_cases h8 : 8 ≤ i
  · have hnlt : ¬ i < 8 := by omega
    by_cases h16 : i - 8 < 8
    · simp [h8, h16, hnlt]
    · have h2p : (256 : Nat) ≤ 2 ^ (i - 8) := by
        calc (256 : Nat) = 2 ^ 8 := by norm_num
        _ ≤ 2 ^ (i - 8) := Nat.pow_le_pow_right (by norm_num) (Nat.le_of_not_lt h16)
      have hfalse : h.testBit (i - 8) = false :=
        Nat.testBit_lt_two_pow (lt_of_lt_of_le hh h2p)
      simp [h8, h16, hfalse]
  · simp [h8]

/-- Writing a high byte over the low byte of a latched address and then
a low byte over its high byte yields exactly the assembled address. -/
theorem assemble_addr (a h l : Nat) (hh : h < 256) :
    (((a &&& 0xFF) ||| (h <<< 8)) &&& 0xFF00) ||| l = (h <<< 8) ||| l := by
  have hx : a &&& 0xFF = a % 256 := by
    have h255 := Nat.and_pow_two_sub_one_eq_mod a 8
    norm_num at h255
    exact h255
  have hlt : a % 256 < 256 := Nat.mod_lt _ (by norm_num)
  rw [hx, Nat.or_comm (a % 256) (h <<< 8), or_add_of_lt h hlt,
    and_ff00_eq h _ hh hlt, Nat.shiftLeft_eq]

/-! ## Claims -/

/-- C1: the claim states `ADC` leaves `A = (A + M + C) mod 256` and sets
carry iff `A + M + C > 0xFF`.  The code (`CPU::adc`) computes
`res = mem + acc` and never adds the incoming carry, contradicting its
own doc comment `A + M + C -> A, C`.  At `A = 0`, `M = 0`, `C = 1` the
code leaves `A = 0` with carry clear, while the claim demands
`A = (0 + 0 + 1) mod 256 = 1`. -/
theorem C1_adc_drops_carry :
    (adcStep { a := 0, x := 0, y := 0, pc := 0, s := 0xFD, p := 0x01 } 0).a = 0 ∧
    ((adcStep { a := 0, x := 0, y := 0, pc := 0, s := 0xFD, p := 0x01 } 0).get_flag .C
      = false) ∧
    (0 + 0 + 1) % 256 = 1 := by
  refine ⟨by decide, by decide, by decide⟩

/-- C8 counterexample: the claim states that a CPU-side write to the
NROM mapper "does not abort".  `mapper_000::Mapper::writeb` is
`unreachable!("cannot write to NROM")`, i.e. it panics (modelled
`none`) on the concrete write of value `0` to `0x8000`. -/
theorem C8_counterexample : nromCart.write 0x8000 0 = none := by
  rfl

/-- C8 (amended): every CPU-side write to the NROM mapper aborts (the
body is `unreachable!`); consequently no write ever changes mapper
state. -/
theorem C8_nrom_write_panics (m : Mapper0) (addr val : Nat) :
    m.writeb addr val = none := rfl

/-- C10: for every mapper variant the `Mapper` trait's default
`readw(addr)` calls `readb(addr)` twice — both the low and the high
byte come from the same address, so the result has the form
`(b << 8) | b`; the CPU's own `readw` instead reads `addr` and
`addr + 1`, as witnessed on a CPU whose RAM holds distinct bytes `0x34`
at 0 and `0x12` at 1. -/
theorem C10_mapper_readw_duplicates_byte :
    (∀ (m : Mapper) (addr : Nat),
      m.readw addr = (m.readb addr).map fun b => (b <<< 8) ||| b) ∧
    cpuR.readw 0 = some ((0x12 <<< 8) ||| 0x34, cpuR) := by
  constructor
  · intro m addr
    cases h : m.readb addr <;> simp [Mapper.readw, h]
  · rfl

/-- C6: the claim states CNROM selects CHR bank `v & 0x03` from the
*written value* regardless of the address.  The code
(`mapper_003::Mapper::writeb`) instead latches `addr & 0x03` and
ignores the value: writing `0x03` to `0x8000` selects bank 0, so a
PPU-side read at 0 returns the bank-0 byte `0xAA`, while the CHR byte
at `0x03 * 0x2000 + 0` that the claim demands is `0xBB`. -/
theorem C6_cnrom_bank_from_addr :
    cnromEx.writeb 0x8000 0x03 = some cnromEx ∧
    cnromEx.selected_bank = 0 ∧
    cnromEx.readb 0 = some 0xAA ∧
    cnromEx.chr_rom.get? (0x03 * 0x2000 + 0) = some 0xBB := by
  refine ⟨rfl, rfl, rfl, rfl⟩

/-- C2 counterexample: the claim states `reset()` leaves `S = 0xFD` for
every CPU state.  Starting from `cpuS12` (stack pointer `0x12`),
`reset()` succeeds and leaves `S = 0x12`: `CPU::reset` only assigns
`pc` and `p`. -/
theorem C2_counterexample :
    (cpuS12.reset.map fun c => c.reg.s) = some 0x12 ∧ (0x12 : Nat) ≠ 0xFD := by
  exact ⟨rfl, by decide⟩

/-- C2 (amended): `reset()` sets PC to the little-endian word read at
`0xFFFC` and P to `0x24`, and leaves every other part of the CPU —
including S — unchanged.  (`S = 0xFD` holds after power-up only because
`Registers::default` initialises it so.) -/
theorem C2_reset_sets_pc_and_p_only (c : CPU) (lo hi : Nat)
    (hlo : c.cartridge.read 0xFFFC = some lo)
    (hhi : c.cartridge.read 0xFFFD = some hi) :
    c.reset = some { c with reg := { c.reg with pc := (hi <<< 8) ||| lo, p := 0x24 } } := by
  simp only [CPU.reset, CPU.readw, CPU.readb, RESET_VECTOR]
  norm_num [hlo, hhi]

/-- Witness for `C2_reset_sets_pc_and_p_only` at the power-up CPU over
an all-zero NROM cartridge. -/
theorem C2_reset_sets_pc_and_p_only_witness :
    cpu0.reset = some { cpu0 with reg := { cpu0.reg with pc := (0 <<< 8) ||| 0, p := 0x24 } } :=
  C2_reset_sets_pc_and_p_only cpu0 0 0 rfl rfl

/-- C3: the claim states five MMC1 writes with bit 7 clear commit the
assembled 5-bit value to the register selected by bits 14-13 of the
fifth write's address (here `0x8000`, selecting `control`), and that a
bit-7 write sets `control := control | 0x0C`.  In the code, five writes
of bit `1` to `0x8000` leave the mapper state completely unchanged —
`control` stays `0`, not the claimed `0b11111` — because the
`0x8000..=0xDFFE` match arm commits nothing (only the
`0xDFFF..=0xFFFF` arm commits, and it commits `val & 0x0F`, not the
shift register).  A bit-7 write also leaves the state unchanged:
`control | 0x0C` is never stored. -/
theorem C3_mmc1_never_commits_control :
    ((((mmc1Ex.writeb 0x8000 1).bind fun m => m.writeb 0x8000 1).bind fun m =>
        m.writeb 0x8000 1).bind fun m => m.writeb 0x8000 1).bind (fun m => m.writeb 0x8000 1)
      = some mmc1Ex ∧
    mmc1Ex.control = 0 ∧ (0 : Nat) ≠ 0b11111 ∧
    mmc1Ex.writeb 0x8000 0x80 = some mmc1Ex ∧ (0 : Nat) ≠ 0 ||| 0x0C := by
  exact ⟨rfl, rfl, by decide, rfl, by decide⟩

/-- C7: the claim states that with more than 8 sprites overlapping a
scanline, PPUSTATUS bit 5 (mask `0x20`) is set and only the first 8
sprites are kept.  On `ppuNine` (exactly nine overlapping sprites) the
code keeps all nine candidates and sets no status bit at all; on
`ppuAll` (64 overlapping sprites) `set_sprite_overflow` fires but sets
`0x40` — the sprite-zero-hit bit — and bit 5 stays clear. -/
theorem C7_sprite_overflow_wrong_count_and_bit :
    (ppuNine.get_scanline_sprite_pixels.1.length = 9 ∧
      ppuNine.get_scanline_sprite_pixels.2.ppustatus = 0) ∧
    (ppuAll.get_scanline_sprite_pixels.2.ppustatus = 0x40 ∧
      ppuAll.get_scanline_sprite_pixels.2.ppustatus &&& 0x20 = 0) := by
  exact ⟨⟨rfl, rfl⟩, rfl, rfl⟩

/-- A bus read never changes the CPU register file: every `CPU::readb`
arm leaves `self.reg` alone (the PPU arm mutates only the PPU). -/
theorem CPU.readb_reg {c : CPU} {addr v : Nat} {c' : CPU}
    (h : c.readb addr = some (v, c')) : c'.reg = c.reg := by
  simp only [CPU.readb] at h
  split at h
  · simp only [Option.some.injEq, Prod.mk.injEq] at h
    rw [← h.2]
  · split at h
    · rcases hp : c.ppu.read c.cartridge (addr % 0x08) with _ | ⟨w, p⟩ <;>
        rw [hp] at h <;>
        simp only [Option.map_none', Option.map_some', Option.some.injEq,
          Prod.mk.injEq, reduceCtorEq] at h
      rw [← h.2]
    · split at h
      · simp only [Option.some.injEq, Prod.mk.injEq] at h
        rw [← h.2]
      · split at h
        · simp only [Option.some.injEq, Prod.mk.injEq] at h
          rw [← h.2]
        · rcases hr : c.cartridge.read addr with _ | w <;>
            rw [hr] at h <;>
            simp only [Option.map_none', Option.map_some', Option.some.injEq,
              Prod.mk.injEq, reduceCtorEq] at h
          rw [← h.2]

/-- `CPU::loadb_bump` only advances PC: the rest of the register file is
preserved. -/
theorem CPU.loadb_bump_reg {c : CPU} {v : Nat} {c' : CPU}
    (h : c.loadb_bump = some (v, c')) :
    c'.reg.a = c.reg.a ∧ c'.reg.p = c.reg.p := by
  simp only [CPU.loadb_bump] at h
  rcases hb : c.readb c.reg.pc with _ | ⟨w, c₀⟩ <;>
    rw [hb] at h <;>
    simp only [Option.map_none', Option.map_some', Option.some.injEq,
      Prod.mk.injEq, reduceCtorEq] at h
  have hreg := CPU.readb_reg hb
  rw [← h.2]
  simp [hreg]

/-- C5 counterexample: the claim demands `V = 1` after `SBC #0xF0` from
`A = 0x50` with carry set.  Executing it on the concrete state `cpuSbc`
leaves `V = 0` (and `A = 0x60`). -/
theorem C5_counterexample :
    (cpuSbc.sbcImmediate.map fun c => c.reg.get_flag .V) = some false ∧
    (cpuSbc.sbcImmediate.map fun c => c.reg.a) = some 0x60 := by
  exact ⟨rfl, rfl⟩

/-- C5 (amended): from any CPU state with `A = 0x50` and the carry flag
set, executing `SBC` with immediate operand `0xF0` leaves `A = 0x60`
and `N = 0`, `V = 0` (not the claimed `V = 1`), `Z = 0`, `C = 0` —
matching the real 6502, where `0x50 - 0xF0` causes no signed
overflow. -/
theorem C5_sbc_immediate_flags (c c1 : CPU)
    (ha : c.reg.a = 0x50) (hc : c.reg.get_flag .C = true)
    (hload : c.loadb_bump = some (0xF0, c1)) :
    ∃ c2, c.sbcImmediate = some c2 ∧ c2.reg.a = 0x60 ∧
      c2.reg.get_flag .N = false ∧ c2.reg.get_flag .V = false ∧
      c2.reg.get_flag .Z = false ∧ c2.reg.get_flag .C = false := by
  obtain ⟨ha1, hp1⟩ := CPU.loadb_bump_reg hload
  have ha' : c1.reg.a = 0x50 := ha1.trans ha
  have hc' : c1.reg.get_flag .C = true := by
    rw [Registers.get_flag, hp1]; exact hc
  have hodd : c1.reg.p % 2 = 1 := by
    simp [Registers.get_flag, Flag.mask] at hc'
    omega
  have f1 : (48 &&& 128 : Nat) = 0 := by decide
  have f2 : (65376 &&& 256 : Nat) = 256 := by decide
  have f3 : (96 &&& 128 : Nat) = 0 := by decide
  have g1 : (254 &&& (191 &&& (253 &&& (127 &&& 128))) : Nat) = 0 := by decide
  have g2 : (254 &&& (191 &&& (253 &&& (127 &&& 64))) : Nat) = 0 := by decide
  have g3 : (254 &&& (191 &&& (253 &&& (127 &&& 2))) : Nat) = 0 := by decide
  have g4 : (254 &&& (191 &&& (253 &&& (127 &&& 1))) : Nat) = 0 := by decide
  refine ⟨{ c1 with reg := sbcStep c1.reg 0xF0 }, ?_, ?_, ?_, ?_, ?_, ?_⟩
  · simp [CPU.sbcImmediate, hload]
  all_goals
    simp [sbcStep, Registers.set_flag, Registers.set_zn, Registers.get_flag,
      Flag.mask, ha', hodd, Nat.and_assoc, f1, f2, f3, g1, g2, g3, g4]
  rw [(by decide : ((254 : Nat) &&& (191 &&& (253 &&& 127))) = 60),
    ← Nat.and_one_is_mod, Nat.and_assoc,
    (by decide : ((60 : Nat) &&& 1) = 0), Nat.and_zero]

/-- Witness for `C5_sbc_immediate_flags` at the concrete state
`cpuSbc`. -/
theorem C5_sbc_immediate_flags_witness :
    ∃ c2, cpuSbc.sbcImmediate = some c2 ∧ c2.reg.a = 0x60 ∧
      c2.reg.get_flag .N = false ∧ c2.reg.get_flag .V = false ∧
      c2.reg.get_flag .Z = false ∧ c2.reg.get_flag .C = false :=
  C5_sbc_immediate_flags cpuSbc cpuSbc' rfl rfl rfl

/-- Closed form of `CPU::pushb` for a byte-sized stack pointer: the
write lands in RAM at `0x100 + S` and S post-decrements with wrap. -/
theorem CPU.pushb_eq (c : CPU) (v : Nat) (hs : c.reg.s < 256) :
    c.pushb v = some
      { c with
          ram := fun i => if i = 0x100 + c.reg.s then v else c.ram i,
          reg := { c.reg with s := (c.reg.s + 255) % 256 } } := by
  have h1 : 0x100 + c.reg.s ≤ 0x1FFF := by omega
  have h2 : (0x100 + c.reg.s) % 0x800 = 0x100 + c.reg.s := Nat.mod_eq_of_lt (by omega)
  simp only [CPU.pushb, CPU.writeb, or256_eq_add hs, h2, if_pos h1,
    Option.map_some']

/-- Closed form of `CPU::popb`: S pre-increments with wrap and the byte
comes from RAM at `0x100 + S`. -/
theorem CPU.popb_eq (c : CPU) :
    c.popb = some (c.ram (0x100 + (c.reg.s + 1) % 256),
      { c with reg := { c.reg with s := (c.reg.s + 1) % 256 } }) := by
  have hs' : (c.reg.s + 1) % 256 < 256 := Nat.mod_lt _ (by norm_num)
  have h1 : 0x100 + (c.reg.s + 1) % 256 ≤ 0x1FFF := by omega
  have h2 : (0x100 + (c.reg.s + 1) % 256) % 0x800 = 0x100 + (c.reg.s + 1) % 256 :=
    Nat.mod_eq_of_lt (by omega)
  simp only [CPU.popb, CPU.readb, or256_eq_add hs', h2, if_pos h1]

/-- C9: the 6502 stack round-trips.  `pushb v` writes `v` to RAM at
`0x0100 | S` and post-decrements S (with `u8` wrap); the following
`popb` pre-increments S back and reads the same address, returning `v`
with S restored.  `pushw w` pushes the high then the low byte, leaving
S lower by exactly 2; the matching `popw` returns `w` and restores
S. -/
theorem C9_stack_roundtrip (c : CPU) (v w : Nat)
    (hs : c.reg.s < 256) (_hv : v < 256) (hw : w < 0x10000) :
    (∃ c1, c.pushb v = some c1 ∧
       c1.reg.s = (c.reg.s + 255) % 256 ∧
       c1.ram (0x100 ||| c.reg.s) = v ∧
       (∀ i, i ≠ 0x100 ||| c.reg.s → c1.ram i = c.ram i) ∧
       c1.popb.map (fun r => (r.1, r.2.reg.s, r.2.ram)) = some (v, c.reg.s, c1.ram)) ∧
    (∃ d1, c.pushw w = some d1 ∧
       d1.reg.s = (c.reg.s + 254) % 256 ∧
       d1.popw.map (fun r => (r.1, r.2.reg.s)) = some (w, c.reg.s)) := by
  have e1 : ((c.reg.s + 255) % 256 + 1) % 256 = c.reg.s := by omega
  constructor
  · refine ⟨_, CPU.pushb_eq c v hs, rfl, ?_, ?_, ?_⟩
    · rw [or256_eq_add hs]; simp
    · intro i hi
      rw [or256_eq_add hs] at hi
      simp [hi]
    · rw [CPU.popb_eq]
      simp [e1]
  · have hs1 : (c.reg.s + 255) % 256 < 256 := Nat.mod_lt _ (by norm_num)
    have hdist : (0x100 : Nat) + (c.reg.s + 255) % 256 ≠ 0x100 + c.reg.s := by omega
    have h1 := CPU.pushb_eq c ((w >>> 8) % 256) hs
    have h2 := CPU.pushb_eq
      { c with
          ram := fun i => if i = 0x100 + c.reg.s then (w >>> 8) % 256 else c.ram i,
          reg := { c.reg with s := (c.reg.s + 255) % 256 } }
      (w &&& 0xFF) hs1
    have hpushw : c.pushw w = some
        { c with
            ram := fun i => if i = 0x100 + (c.reg.s + 255) % 256 then w &&& 0xFF
              else if i = 0x100 + c.reg.s then (w >>> 8) % 256 else c.ram i,
            reg := { c.reg with s := ((c.reg.s + 255) % 256 + 255) % 256 } } := by
      show (c.pushb ((w >>> 8) % 256)).bind (fun c => c.pushb (w &&& 0xFF)) = _
      rw [h1]
      simp only [Option.some_bind]
      rw [h2]
    refine ⟨_, hpushw, ?_, ?_⟩
    · show (((c.reg.s + 255) % 256 + 255) % 256) = (c.reg.s + 254) % 256
      omega
    · have e2 : (((c.reg.s + 255) % 256 + 255) % 256 + 1) % 256 = (c.reg.s + 255) % 256 := by
        omega
      have hw8 : (w >>> 8) % 256 = w / 256 := by
        have hdiv : w >>> 8 = w / 2 ^ 8 := Nat.shiftRight_eq_div_pow w 8
        norm_num at hdiv
        rw [hdiv]
        exact Nat.mod_eq_of_lt (by omega)
      have hw0 : w &&& 0xFF = w % 256 := by
        have hmod := Nat.and_pow_two_sub_one_eq_mod w 8
        norm_num at hmod
        exact hmod
      simp only [CPU.popw, CPU.popb_eq, Option.bind_eq_bind, Option.some_bind,
        Option.pure_def, Option.map_some', Option.some.injEq, Prod.mk.injEq]
      constructor
      · simp only [e2, e1]
        simp [hdist.symm, hw8, hw0]
        rw [or_add_of_lt _ (Nat.mod_lt _ (by norm_num))]
        omega
      · simp only [e2]
        exact e1

/-- Witness for `C9_stack_roundtrip` at the power-up CPU with byte
`0xAB` and word `0xBEEF`. -/
theorem C9_stack_roundtrip_witness :
    (∃ c1, cpu0.pushb 0xAB = some c1 ∧
       c1.reg.s = (cpu0.reg.s + 255) % 256 ∧
       c1.ram (0x100 ||| cpu0.reg.s) = 0xAB ∧
       (∀ i, i ≠ 0x100 ||| cpu0.reg.s → c1.ram i = cpu0.ram i) ∧
       c1.popb.map (fun r => (r.1, r.2.reg.s, r.2.ram))
         = some (0xAB, cpu0.reg.s, c1.ram)) ∧
    (∃ d1, cpu0.pushw 0xBEEF = some d1 ∧
       d1.reg.s = (cpu0.reg.s + 254) % 256 ∧
       d1.popw.map (fun r => (r.1, r.2.reg.s)) = some (0xBEEF, cpu0.reg.s)) :=
  C9_stack_roundtrip cpu0 0xAB 0xBEEF (by decide) (by decide) (by decide)

/-- C4: reading PPUSTATUS (register index 2) returns the current status
byte, clears its VBlank bit (bit 7) and resets the shared write latch
to "high byte next"; after that, writing `hi` then `lo` to PPUADDR
(register index 6) leaves the PPU address at exactly `(hi << 8) | lo`,
and the next PPUDATA access (register index 7) uses exactly that
assembled address. -/
theorem C4_ppustatus_read_resets_latch (p : PPU) (cart : Cartridge) (hi lo : Nat)
    (hhi : hi < 256) :
    ∃ p1 p2 p3,
      p.read cart 2 = some (p.ppustatus, p1) ∧
      p1.ppustatus = p.ppustatus &&& 0x7F ∧
      p1.address_latch = AddressLatch.HI ∧
      p1.write cart 6 hi = some (p2, cart) ∧
      p2.write cart 6 lo = some (p3, cart) ∧
      p3.ppuaddr = (hi <<< 8) ||| lo ∧
      p3.read cart 7 = p3.ppudata_read cart ((hi <<< 8) ||| lo) := by
  refine ⟨_, _, _, rfl, rfl, rfl, rfl, rfl, assemble_addr p.ppuaddr hi lo hhi, ?_⟩
  exact congrArg (PPU.ppudata_read _ cart) (assemble_addr p.ppuaddr hi lo hhi)

/-- Witness for `C4_ppustatus_read_resets_latch` at the power-up PPU
with `hi = 0x12`, `lo = 0x34`. -/
theorem C4_ppustatus_read_resets_latch_witness :
    ∃ p1 p2 p3,
      ppu0.read nromCart 2 = some (ppu0.ppustatus, p1) ∧
      p1.ppustatus = ppu0.ppustatus &&& 0x7F ∧
      p1.address_latch = AddressLatch.HI ∧
      p1.write nromCart 6 0x12 = some (p2, nromCart) ∧
      p2.write nromCart 6 0x34 = some (p3, nromCart) ∧
      p3.ppuaddr = (0x12 <<< 8) ||| 0x34 ∧
      p3.read nromCart 7 = p3.ppudata_read nromCart ((0x12 <<< 8) ||| 0x34) :=
  C4_ppustatus_read_resets_latch ppu0 nromCart 0x12 0x34 (by decide)

end Shrimp
